import Mathlib

/-!
Verification of the `grr/lib/rdfvalue.py` semantic-value layer.

This file gives a shallow embedding of the pure algorithmic core of the
module: Python byte strings are modelled as `List Char`, Python integers
(`int`/`long`) as `Int`, raised exceptions as an explicit error type
threaded through `Except` or an `Option` error component.  Every
definition is translated from the source file; the few helpers that live
in `grr.lib.utils` (not part of the sources at hand) are modelled from
the specification and marked as such in their doc comments.
-/

/- ------------------------------------------------------------------ -/
/- DEFINITIONS                                                        -/
/- ------------------------------------------------------------------ -/

/-- Exception classes raised by the code under study.  `valueError`,
`typeError`, `keyError` and `runtimeError` are the Python builtins;
`decodeError` models `rdfvalue.DecodeError` (a subclass of both
`InitializeError` and `ValueError`) and `initializeError` models
`rdfvalue.InitializeError`. -/
inductive PyErr : Type
  | valueError
  | typeError
  | keyError
  | runtimeError
  | decodeError
  | initializeError
deriving DecidableEq, Repr

/-- Decidable equality for `Except`, needed to settle concrete claim
instances by `decide`. -/
instance instDecEqExcept {ε α : Type} [DecidableEq ε] [DecidableEq α] :
    DecidableEq (Except ε α) := fun x y =>
  match x, y with
  | .ok a, .ok b =>
    match decEq a b with
    | isTrue h => isTrue (h ▸ rfl)
    | isFalse h => isFalse (fun hc => h (Except.ok.inj hc))
  | .error a, .error b =>
    match decEq a b with
    | isTrue h => isTrue (h ▸ rfl)
    | isFalse h => isFalse (fun hc => h (Except.error.inj hc))
  | .ok _, .error _ => isFalse (fun hc => Except.noConfusion hc)
  | .error _, .ok _ => isFalse (fun hc => Except.noConfusion hc)

/-- Characters for which Python 2 `str.isspace()` is true. -/
def pyIsSpace (c : Char) : Bool :=
  c = ' ' || c = '\t' || c = '\n' || c = '\x0b' || c = '\x0c' || c = '\r'

/-- The decimal digit character for `n < 10` (used to model `str(int)`). -/
def digitChar (n : Nat) : Char :=
  match n with
  | 0 => '0'
  | 1 => '1'
  | 2 => '2'
  | 3 => '3'
  | 4 => '4'
  | 5 => '5'
  | 6 => '6'
  | 7 => '7'
  | 8 => '8'
  | _ => '9'

/-- Fuel-driven digit expansion; with enough fuel (`n < 10 ^ fuel`) it is
the decimal digit list of `n`, most significant digit first.  The fuel
keeps the recursion structural so that terms reduce inside the kernel. -/
def natDecAux (fuel n : Nat) : List Char :=
  match fuel with
  | 0 => []
  | fuel + 1 =>
    if n < 10 then [digitChar n]
    else natDecAux fuel (n / 10) ++ [digitChar (n % 10)]

/-- Decimal digit list of a natural number, most significant digit first,
as produced by Python `str()` on a non-negative integer. -/
def natDec (n : Nat) : List Char := natDecAux (n + 1) n

/-- Python `str(v)` for an arbitrary integer `v` (`int`/`long`). -/
def intRepr (v : Int) : List Char :=
  if v < 0 then '-' :: natDec v.natAbs else natDec v.toNat

/-- Numeric value of a decimal digit character. -/
def charVal (c : Char) : Nat := c.toNat - 48

/-- Value of a non-empty all-digit character list, `none` otherwise. -/
def decDigitsVal (cs : List Char) : Option Nat :=
  if cs.isEmpty then none
  else if cs.all Char.isDigit then
    some (cs.foldl (fun a c => 10 * a + charVal c) 0)
  else none

/-- Python `str.strip()`: remove leading and trailing whitespace. -/
def pyStrip (cs : List Char) : List Char :=
  ((cs.dropWhile pyIsSpace).reverse.dropWhile pyIsSpace).reverse

/-- Sign-and-digits part of Python `int(string)` after stripping. -/
def pyIntCore (cs : List Char) : Except PyErr Int :=
  match cs with
  | [] => .error .valueError
  | c :: rest =>
    if c = '-' then
      match decDigitsVal rest with
      | some n => .ok (-(n : Int))
      | none => .error .valueError
    else if c = '+' then
      match decDigitsVal rest with
      | some n => .ok (n : Int)
      | none => .error .valueError
    else
      match decDigitsVal (c :: rest) with
      | some n => .ok (n : Int)
      | none => .error .valueError

/-- Python `int(string)`: strict integer syntax, surrounding whitespace
allowed, raises `ValueError` on anything else. -/
def pyInt (cs : List Char) : Except PyErr Int :=
  pyIntCore (pyStrip cs)

/-- `RDFInteger.ParseFromString` (rdfvalue.py lines 335-341).  The method
body is: `self._value = 0; if string: try: self._value = int(string)
except TypeError as e: raise DecodeError(e)`.  The first component of the
result is the stored `_value` after the call (the parameter `old` is the
stored value before the call; the method overwrites it with 0 before
parsing, so the result never depends on it), the second the exception
raised, if any.  Note the `except` clause catches only `TypeError`, which
`int()` never raises on a string argument; the `ValueError` raised by
`int()` on malformed text propagates unwrapped. -/
def RDFInteger.ParseFromString (old : Int) (s : List Char) : Int × Option PyErr :=
  -- self._value = 0: the previously stored value `old` is discarded up front,
  -- so `old` does not occur in the body.
  if s.isEmpty then ((0 : Int), none)
  else
    match pyInt s with
    | .ok n => (n, none)
    | .error e => if e = .typeError then ((0 : Int), some .decodeError) else ((0 : Int), some e)

/-- `Duration.DIVIDERS` (rdfvalue.py lines 622-627): the ordered unit table
`OrderedDict((("w", 604800), ("d", 86400), ("h", 3600), ("m", 60), ("s", 1)))`.
The keys are one-character strings, modelled as characters. -/
def Duration.DIVIDERS : List (Char × Nat) :=
  [('w', 60 * 60 * 24 * 7), ('d', 60 * 60 * 24), ('h', 60 * 60), ('m', 60), ('s', 1)]

/-- Loop body of `Duration.__str__` (lines 662-666): iterate the ordered
unit table and, at the first divider that evenly divides the value, render
`"%d%s" % (time_secs / divider, label)`.  Python `%` against a positive
divisor tests the same divisibility as `Int.emod`, and Python 2 `/` on
integers is floor division (`Int.fdiv`). -/
def Duration.strGo (v : Int) : List (Char × Nat) → Option (List Char)
  | [] => none
  | (label, divider) :: rest =>
    if v % (divider : Int) = 0 then some (intRepr (v.fdiv (divider : Int)) ++ [label])
    else Duration.strGo v rest

/-- `Duration.__str__` / `SerializeToString` (lines 651-666).  The `none`
fallback is unreachable: the final divider 1 divides every value. -/
def Duration.str (v : Int) : List Char :=
  (Duration.strGo v Duration.DIVIDERS).getD []

/-- `Duration.ParseFromHumanReadable` (lines 723-751), also reached from
`ParseFromString` (line 648).  `old` is the stored `_value` before the
call: a falsy (empty) string returns immediately leaving it untouched.
If the last character is a digit the whole string is given to `int()`
with multiplicator 1; otherwise the last character is looked up in
`DIVIDERS` (a case-sensitive dict lookup), a `KeyError` being turned into
a `RuntimeError`; the remaining prefix is given to `int()`.  A
`ValueError` from `int()` is turned into an `InitializeError`. -/
def Duration.ParseFromHumanReadable (old : Int) (s : List Char) : Except PyErr Int :=
  if s.isEmpty then .ok old
  else
    match s.getLast? with
    | none => .ok old   -- unreachable: s is non-empty
    | some c =>
      if c.isDigit then
        match pyInt s with
        | .ok n => .ok (n * 1)
        | .error _ => .error .initializeError
      else
        match Duration.DIVIDERS.lookup c with
        | none => .error .runtimeError
        | some divider =>
          match pyInt s.dropLast with
          | .ok n => .ok (n * (divider : Int))
          | .error _ => .error .initializeError

/-- `ByteSize.DIVIDERS` (rdfvalue.py lines 763-771): unit multipliers,
keyed by the (lower-cased) unit prefix captured by the regex.  SI
prefixes are powers of 1000, binary prefixes powers of 1024. -/
def ByteSize.DIVIDERS : List (List Char × Nat) :=
  [([], 1),
   (['k'], 1000), (['m'], 1000 ^ 2), (['g'], 1000 ^ 3),
   (['k', 'i'], 1024), (['m', 'i'], 1024 ^ 2), (['g', 'i'], 1024 ^ 3)]

/-- `ByteSize.REGEX` (line 773): `^([0-9.]+)([kmgi]*)b?$`, returning the
two capture groups on a match.  Greedy matching without backtracking is
exact here: the classes `[0-9.]` and `[kmgi]` are disjoint and the
optional literal `b` belongs to neither, so giving back characters can
never turn a failed match into a successful one. -/
def ByteSize.regexMatch (cs : List Char) : Option (List Char × List Char) :=
  let isMag := fun c => c.isDigit || c = '.'
  let isUnit := fun c => c = 'k' || c = 'm' || c = 'g' || c = 'i'
  let g1 := cs.takeWhile isMag
  let rest1 := cs.dropWhile isMag
  let g2 := rest1.takeWhile isUnit
  let rest2 := rest1.dropWhile isUnit
  if g1.isEmpty then none
  else if rest2 = [] || rest2 = ['b'] then some (g1, g2) else none

/-- Splitting a character list at every occurrence of a separator
character (as Python `str.split(sep)`). -/
def splitOnChar (sep : Char) : List Char → List (List Char)
  | [] => [[]]
  | c :: rest =>
    if c = sep then [] :: splitOnChar sep rest
    else
      match splitOnChar sep rest with
      | [] => [[c]]   -- unreachable: splitOnChar never returns []
      | s :: ss => (c :: s) :: ss

/-- Python `float()` restricted to strings over `[0-9.]` (all the regex
can capture).  The result is the exact rational numerator/10-power pair;
the model is exact rational arithmetic, which agrees with the IEEE double
used by Python whenever the decimal is exactly representable (as in every
concrete instance evaluated below).  Multiple dots, or a bare `"."`, are
a `ValueError` — which `ByteSize.ParseFromHumanReadable` does not catch. -/
def pyFloatDigits (cs : List Char) : Except PyErr (Nat × Nat) :=
  match splitOnChar '.' cs with
  | [ip] =>
    if ip.isEmpty then .error .valueError
    else if ip.all Char.isDigit then
      .ok (ip.foldl (fun a c => 10 * a + charVal c) 0, 0)
    else .error .valueError
  | [ip, fp] =>
    if ip.isEmpty && fp.isEmpty then .error .valueError
    else if ip.all Char.isDigit && fp.all Char.isDigit then
      .ok ((ip ++ fp).foldl (fun a c => 10 * a + charVal c) 0, fp.length)
    else .error .valueError
  | _ => .error .valueError

/-- `ByteSize.ParseFromHumanReadable` (lines 807-834).  `old` is the
stored value before the call (a falsy string returns leaving it
untouched).  The stripped, lower-cased input is matched against the
regex; a failed match or an unknown (or falsy) multiplier is a
`DecodeError`; a magnitude containing `"."` goes through `float()`
(its `ValueError` on a malformed magnitude propagating uncaught), and
`int(value * multiplier)` truncates toward zero — for the non-negative
magnitudes at hand, `numerator * multiplier / 10 ^ k` in `Nat`. -/
def ByteSize.ParseFromHumanReadable (old : Int) (cs : List Char) : Except PyErr Int :=
  if cs.isEmpty then .ok old
  else
    let t := (pyStrip cs).map Char.toLower
    match ByteSize.regexMatch t with
    | none => .error .decodeError
    | some (g1, g2) =>
      match ByteSize.DIVIDERS.lookup g2 with
      | none => .error .decodeError
      | some m =>
        if m = 0 then .error .decodeError   -- `if not multiplier`; no table entry is 0
        else if '.' ∈ g1 then
          match pyFloatDigits g1 with
          | .ok (num, k) => .ok ((num * m / 10 ^ k : Nat) : Int)
          | .error e => .error e
        else
          match decDigitsVal g1 with
          | some n => .ok ((n * m : Nat) : Int)
          | none => .error .valueError      -- unreachable: g1 is non-empty digits

/-- Nearest integer to `a / b` (`b > 0`), ties to even: the rounding C's
`%.1f` applies to the scaled value. -/
def roundHalfEvenScaled (a : Int) (b : Nat) : Int :=
  let q := a.fdiv (b : Int)
  let r := a - q * (b : Int)
  if (b : Int) < 2 * r then q + 1
  else if 2 * r < (b : Int) then q
  else if q % 2 = 0 then q else q + 1

/-- Python `"%.1f" % (num / den)` for `den > 0`, modelled by exact
rational rounding of the quotient to one decimal place (agreeing with the
IEEE double wherever the quotient is exactly representable, as in every
concrete instance evaluated below). -/
def pyFormatF1 (num : Int) (den : Nat) : List Char :=
  let t := roundHalfEvenScaled (10 * num) den
  intRepr (t.fdiv 10) ++ ['.'] ++ [digitChar (t.fmod 10).toNat]

/-- `ByteSize.__str__` (lines 791-805): pick the largest of Gb/Mb/Kb
(binary multiples) that the value strictly exceeds and render to one
decimal place, else render the raw count followed by `b`. -/
def ByteSize.str (v : Int) : List Char :=
  if (1024 ^ 3 : Int) < v then pyFormatF1 v (1024 ^ 3) ++ ['G', 'b']
  else if (1024 ^ 2 : Int) < v then pyFormatF1 v (1024 ^ 2) ++ ['M', 'b']
  else if (1024 : Int) < v then pyFormatF1 v 1024 ++ ['K', 'b']
  else intRepr v ++ ['b']

/-- Modelled from the spec: `utils.NormalizePath` (in `grr.lib.utils`,
which is not among the sources at hand).  Spec §3: "URN paths are always
normalized (no redundant separators, no unresolved relative segments)
before being stored or compared", POSIX style with a leading slash.  One
segment-processing step: empty and "." segments are dropped, ".." pops
the previous segment, anything else is appended. -/
def normStep (acc : List (List Char)) (seg : List Char) : List (List Char) :=
  if seg = [] || seg = ['.'] then acc
  else if seg = ['.', '.'] then acc.dropLast
  else acc ++ [seg]

/-- Render a segment list as an absolute slash-separated path. -/
def renderAbs (segs : List (List Char)) : List Char :=
  segs.foldl (fun acc s => acc ++ '/' :: s) []

/-- Modelled from the spec: `utils.NormalizePath` — split on "/", resolve
relative segments, render absolute (the root alone renders as "/"). -/
def normalizePath (cs : List Char) : List Char :=
  let segs := (splitOnChar '/' cs).foldl normStep []
  if segs.isEmpty then ['/'] else renderAbs segs

/-- Modelled from the spec: `utils.JoinPath` (spec §4.6: `Add(segment)`
joins `segment` to the current path and normalizes). -/
def JoinPath (a b : List Char) : List Char :=
  normalizePath (a ++ '/' :: b)

/-- The paths the spec invariant allows to be stored in a URN. -/
def NormalizedPath (cs : List Char) : Prop := normalizePath cs = cs

/-- Mutable state of an `RDFURN` object: the stored scheme-less path
`_string_urn` and the `dirty` flag (class default `False`). -/
structure URNState : Type where
  string_urn : List Char
  dirty : Bool
deriving DecidableEq, Repr

/-- `RDFURN.ParseFromString` (rdfvalue.py lines 867-877): strip a leading
"aff4:/" — the code drops the first five characters, keeping the slash —
then store the normalized path. -/
def RDFURN.ParseFromString (u : URNState) (cs : List Char) : URNState :=
  let stripped := if cs.take 6 = "aff4:/".data then cs.drop 5 else cs
  { u with string_urn := normalizePath stripped }

/-- `RDFURN(initializer=string)`: a fresh object (class defaults) whose
`ParseFromString` is then invoked by `RDFValue.__init__`. -/
def RDFURN.fromString (cs : List Char) : URNState :=
  RDFURN.ParseFromString { string_urn := [], dirty := false } cs

/-- `RDFURN.__str__` / `SerializeToString` (lines 879-880, 942-943):
`"aff4:%s" % self._string_urn`. -/
def RDFURN.SerializeToString (u : URNState) : List Char :=
  "aff4:".data ++ u.string_urn

/-- `RDFURN.Copy` (lines 936-940): `self.__class__(self, age)` — the
`RDFURN.__init__` branch for an `RDFURN` initializer copies `Path()`
directly into a fresh object (class-default `dirty = False`). -/
def RDFURN.Copy (u : URNState) : URNState :=
  { string_urn := u.string_urn, dirty := false }

/-- `RDFURN.Update` (lines 923-934) restricted to the `path` keyword as
`Add` uses it: `if path: self._string_urn = path`, then `dirty = True`. -/
def RDFURN.Update (u : URNState) (path : List Char) : URNState :=
  { u with
    string_urn := if path.isEmpty then u.string_urn else path,
    dirty := true }

/-- `RDFURN.Add` (lines 900-921): `result = self.Copy(age);
result.Update(path=utils.JoinPath(self._string_urn, path)); return result`.
The pair is (receiver state after the call, returned object). -/
def RDFURN.Add (u : URNState) (path : List Char) : URNState × URNState :=
  (u, RDFURN.Update (RDFURN.Copy u) (JoinPath u.string_urn path))

/-- `posixpath.basename`: everything after the last slash. -/
def posixBasename (cs : List Char) : List Char :=
  (cs.reverse.takeWhile (fun c => !(c = '/'))).reverse

/-- `SessionID.ValidateID` (lines 1086-1092): match against
`^[-0-9a-zA-Z]+:[0-9a-zA-Z]+$`.  Greedy matching is deterministic: ":"
belongs to neither class, so the first ":" must terminate the first
group, and a second ":" kills every parse. -/
def SessionID.ValidateID (cs : List Char) : Bool :=
  let class1 := fun (c : Char) => c = '-' || c.isDigit || c.isAlpha
  let class2 := fun (c : Char) => c.isDigit || c.isAlpha
  let p1 := cs.takeWhile class1
  match cs.drop p1.length with
  | ':' :: p2 => !p1.isEmpty && !p2.isEmpty && p2.all class2
  | _ => false

/-- `SessionID.__init__` for an existing-URN initializer (lines
1068-1074): `ValidateID(initializer.Basename())`, a `ValueError` becoming
an `InitializeError`; the path of the given URN is then copied into the
new object unchanged by `RDFURN.__init__`'s `RDFURN` branch. -/
def SessionID.fromURN (u : URNState) : Except PyErr URNState :=
  if SessionID.ValidateID (posixBasename u.string_urn) then
    .ok { string_urn := u.string_urn, dirty := false }
  else .error .initializeError

/-- `FlowSessionID.ParseFromString` (lines 1100-1104): a string that does
not start with "aff4" is qualified with "aff4:/flows/" before normal URN
parsing.  (`SessionID` does not override `ParseFromString`, so the
super call reaches `RDFURN.ParseFromString`.) -/
def FlowSessionID.ParseFromString (u : URNState) (cs : List Char) : URNState :=
  let qualified := if cs.take 4 = "aff4".data then cs else "aff4:/flows/".data ++ cs
  RDFURN.ParseFromString u qualified

/-- `FlowSessionID(initializer=string)`: `SessionID.__init__` reaches its
final `super().__init__` without touching `ValidateID` — the validation
branch fires only for `isinstance(initializer, RDFURN)` — and
`RDFValue.__init__` dispatches to the subclass `ParseFromString`.
Construction from a string therefore never fails. -/
def FlowSessionID.fromString (cs : List Char) : Except PyErr URNState :=
  .ok (FlowSessionID.ParseFromString { string_urn := [], dirty := false } cs)

/-- The contents of `_LATE_BINDING_STORE` (rdfvalue.py line 37), a dict
from target class name to the list of pending (callback, kwargs) pairs in
registration order — modelled as a flat ordered association list (the
callback closures and their kwargs are opaque, so they are represented by
identifiers). -/
def LateBindingStore : Type := List (String × Nat)

/-- `RegisterLateBindingCallback` (lines 40-42):
`_LATE_BINDING_STORE.setdefault(target_name, []).append((callback, kwargs))`. -/
def RegisterLateBindingCallback (name : String) (cb : Nat) (s : LateBindingStore) :
    LateBindingStore :=
  List.append s [(name, cb)]

/-- One performed call `callback(target=cls, **kwargs)`: the name that was
just defined, the callback that ran and the class it was handed. -/
structure Invocation : Type where
  name : String
  cb : Nat
  target : Nat
deriving DecidableEq, Repr

/-- `RDFValueMetaclass.__init__` (lines 61-69), the registry's Define step
for late bindings: `for callback, kwargs in _LATE_BINDING_STORE.pop(name,
[]): callback(target=cls, **kwargs)` — pop every entry pending under the
freshly defined name and run each once with the new class `ty`.  Returns
the store after the pop and the invocations performed, in order. -/
def DefineType (name : String) (ty : Nat) (s : LateBindingStore) :
    LateBindingStore × List Invocation :=
  (List.filter (fun p => !(p.1 == name)) s,
   List.map (fun p => Invocation.mk name p.2 ty) (List.filter (fun p => p.1 == name) s))

/-- Interleaved registry events: registering a late-binding callback for a
name, or defining (declaring) a class of a given name. -/
inductive RegEvent : Type
  | register (name : String) (cb : Nat)
  | define (name : String) (ty : Nat)
deriving DecidableEq, Repr

/-- Run a sequence of registry events against a store, collecting every
callback invocation in order. -/
def runEvents (s : LateBindingStore) : List RegEvent → LateBindingStore × List Invocation
  | [] => (s, [])
  | RegEvent.register n cb :: rest => runEvents (RegisterLateBindingCallback n cb s) rest
  | RegEvent.define n ty :: rest =>
    let step := DefineType n ty s
    let tail := runEvents step.1 rest
    (tail.1, step.2 ++ tail.2)

/-- The factor converting seconds to microseconds (rdfvalue.py line 34);
`RDFDatetime.converter` is this, `RDFDatetimeSeconds.converter` is 1. -/
def MICROSECONDS : Int := 1000000

/-- `RDFDatetime.AsSecondsFromEpoch` (lines 500-501):
`self._value / self.converter` — Python 2 integer division is floor
division, `Int.fdiv`.  `converter` is the resolution, `v` the stored
count of resolution units since the epoch. -/
def RDFDatetime.AsSecondsFromEpoch (converter v : Int) : Int :=
  v.fdiv converter

/-- `RDFDatetime.__sub__` for an absolute-time operand (lines 544-545):
`Duration(self.AsSecondsFromEpoch() - other.AsSecondsFromEpoch())`; the
result is the constructed Duration's stored seconds. -/
def RDFDatetime.subDatetime (converter a b : Int) : Int :=
  RDFDatetime.AsSecondsFromEpoch converter a - RDFDatetime.AsSecondsFromEpoch converter b

/-- The claim's reading of datetime subtraction, for comparison: the
difference of the two instants expressed in seconds, with any sub-second
remainder truncated (toward zero, Python `int()` truncation). -/
def specTruncatedDifferenceSeconds (converter a b : Int) : Int :=
  Int.tdiv (a - b) converter

/-- Modelled from the spec: `utils.SmartStr` (in `grr.lib.utils`, not
among the sources at hand).  Spec §4.3: construction "coerces to the
fixed text encoding"; on an already-encoded Python 2 byte string — our
model of `str` — the coercion is the identity. -/
def SmartStr (cs : List Char) : List Char := cs

/-- `RDFBytes.ParseFromString` (lines 207-213) for a `str` argument:
store the bytes as given (the `unicode` branch does not apply to the
byte strings we model). -/
def RDFBytes.ParseFromString (cs : List Char) : List Char := cs

/-- `RDFBytes.SerializeToString` (lines 215-216): return the stored bytes. -/
def RDFBytes.SerializeToString (v : List Char) : List Char := v

/-- `RDFString.ParseFromString` (lines 291-293): `utils.SmartStr(string)`. -/
def RDFString.ParseFromString (cs : List Char) : List Char := SmartStr cs

/-- `RDFString.SerializeToString` (lines 295-296): `utils.SmartStr(self._value)`. -/
def RDFString.SerializeToString (v : List Char) : List Char := SmartStr v

/-- Hexadecimal digit character, lower case (as Python 2 `.encode("hex")`). -/
def hexChar (n : Nat) : Char :=
  match n with
  | 0 => '0'
  | 1 => '1'
  | 2 => '2'
  | 3 => '3'
  | 4 => '4'
  | 5 => '5'
  | 6 => '6'
  | 7 => '7'
  | 8 => '8'
  | 9 => '9'
  | 10 => 'a'
  | 11 => 'b'
  | 12 => 'c'
  | 13 => 'd'
  | 14 => 'e'
  | _ => 'f'

/-- Python 2 `bytes.encode("hex")`: two lower-case hex digits per byte. -/
def hexEncode (cs : List Char) : List Char :=
  cs.foldr (fun c acc => hexChar (c.toNat / 16) :: hexChar (c.toNat % 16) :: acc) []

/-- `HashDigest.__eq__` (lines 310-312) between two HashDigest values `a`
and `b`, with Python 2 comparison dispatch resolved: the code computes
`a._value == utils.SmartStr(b) or a._value.encode("hex") == b`.
`SmartStr(b)` is `str(b)`, the hex encoding; the second disjunct
compares a `str` to a HashDigest, which reflects into `b.__eq__` on the
hex string and there unfolds to its own two disjuncts. -/
def HashDigest.eqPy (a b : List Char) : Prop :=
  a = hexEncode b ∨ b = hexEncode a ∨ hexEncode b = hexEncode a

/- ------------------------------------------------------------------ -/
/- THEOREMS                                                           -/
/- ------------------------------------------------------------------ -/

theorem pyIsSpace_eq_false_of_isDigit (c : Char) (h : c.isDigit = true) :
    pyIsSpace c = false := by
  rcases Bool.eq_false_or_eq_true (pyIsSpace c) with ht | hf
  swap
  · exact hf
  · exfalso
    unfold pyIsSpace at ht
    simp only [Bool.or_eq_true, decide_eq_true_eq] at ht
    rcases ht with ((((h1 | h1) | h1) | h1) | h1) | h1 <;>
      (subst h1; exact absurd h (by decide))

theorem dropWhile_eq_self_of_forall {p : Char → Bool} {l : List Char}
    (h : ∀ c ∈ l, p c = false) : l.dropWhile p = l := by
  cases l with
  | nil => rfl
  | cons c cs =>
    simp only [List.dropWhile]
    rw [h c (List.mem_cons_self c cs)]

theorem pyStrip_eq_self {l : List Char} (h : ∀ c ∈ l, pyIsSpace c = false) :
    pyStrip l = l := by
  unfold pyStrip
  rw [dropWhile_eq_self_of_forall h,
      dropWhile_eq_self_of_forall (fun c hc => h c (List.mem_reverse.mp hc)),
      List.reverse_reverse]

theorem digitChar_isDigit (n : Nat) (h : n < 10) : (digitChar n).isDigit = true := by
  interval_cases n <;> rfl

theorem charVal_digitChar (n : Nat) (h : n < 10) : charVal (digitChar n) = n := by
  interval_cases n <;> rfl

theorem natDecAux_ne_nil (fuel n : Nat) (h : 0 < fuel) : natDecAux fuel n ≠ [] := by
  cases fuel with
  | zero => omega
  | succ fuel =>
    unfold natDecAux
    split
    · simp
    · simp

theorem natDec_ne_nil (n : Nat) : natDec n ≠ [] :=
  natDecAux_ne_nil (n + 1) n (by omega)

theorem natDecAux_all_digits (fuel : Nat) :
    ∀ n, ∀ c ∈ natDecAux fuel n, c.isDigit = true := by
  induction fuel with
  | zero => intro n c hc; simp [natDecAux] at hc
  | succ fuel ih =>
    intro n c hc
    unfold natDecAux at hc
    by_cases h : n < 10
    · rw [if_pos h, List.mem_singleton] at hc
      subst hc
      exact digitChar_isDigit n h
    · rw [if_neg h] at hc
      rcases List.mem_append.mp hc with hc | hc
      · exact ih (n / 10) c hc
      · rw [List.mem_singleton] at hc
        subst hc
        exact digitChar_isDigit _ (Nat.mod_lt _ (by omega))

theorem natDec_all_digits (n : Nat) : ∀ c ∈ natDec n, c.isDigit = true :=
  natDecAux_all_digits (n + 1) n

theorem foldlVal_append (xs : List Char) (c : Char) (a : Nat) :
    (xs ++ [c]).foldl (fun a c => 10 * a + charVal c) a
      = 10 * (xs.foldl (fun a c => 10 * a + charVal c) a) + charVal c := by
  rw [List.foldl_append]
  rfl

theorem natDecAux_val (fuel : Nat) :
    ∀ n, n < 10 ^ fuel →
      (natDecAux fuel n).foldl (fun a c => 10 * a + charVal c) 0 = n := by
  induction fuel with
  | zero =>
    intro n h
    simp only [pow_zero, Nat.lt_one_iff] at h
    subst h
    rfl
  | succ fuel ih =>
    intro n h
    unfold natDecAux
    by_cases hn : n < 10
    · rw [if_pos hn]
      simp only [List.foldl_cons, List.foldl_nil]
      rw [charVal_digitChar n hn]
      omega
    · rw [if_neg hn]
      have hdiv : n / 10 < 10 ^ fuel := by
        apply Nat.div_lt_of_lt_mul
        rw [pow_succ] at h
        omega
      rw [foldlVal_append, ih (n / 10) hdiv,
        charVal_digitChar _ (Nat.mod_lt _ (by omega))]
      omega

theorem natDec_val (n : Nat) :
    (natDec n).foldl (fun a c => 10 * a + charVal c) 0 = n :=
  natDecAux_val (n + 1) n (lt_of_lt_of_le (Nat.lt_pow_self (by omega) n)
    (Nat.pow_le_pow_right (by omega) (by omega)))

theorem decDigitsVal_natDec (n : Nat) : decDigitsVal (natDec n) = some n := by
  unfold decDigitsVal
  rw [if_neg (by simpa using natDec_ne_nil n)]
  rw [if_pos (by rw [List.all_eq_true]; exact natDec_all_digits n)]
  rw [natDec_val]

theorem pyStrip_natDec (n : Nat) : pyStrip (natDec n) = natDec n :=
  pyStrip_eq_self (fun c hc => pyIsSpace_eq_false_of_isDigit c (natDec_all_digits n c hc))

theorem pyIntCore_natDec (n : Nat) : pyIntCore (natDec n) = .ok (n : Int) := by
  cases hne : natDec n with
  | nil => exact absurd hne (natDec_ne_nil n)
  | cons c rest =>
    have hcd : c.isDigit = true := by
      apply natDec_all_digits n
      rw [hne]
      exact List.mem_cons_self c rest
    simp only [pyIntCore]
    rw [if_neg (by rintro rfl; exact absurd hcd (by decide))]
    rw [if_neg (by rintro rfl; exact absurd hcd (by decide))]
    rw [← hne, decDigitsVal_natDec]

theorem pyInt_intRepr (v : Int) : pyInt (intRepr v) = .ok v := by
  unfold intRepr
  by_cases hv : v < 0
  · rw [if_pos hv]
    unfold pyInt
    have hstrip : pyStrip ('-' :: natDec v.natAbs) = '-' :: natDec v.natAbs := by
      apply pyStrip_eq_self
      intro c hc
      rcases List.mem_cons.mp hc with h | h
      · subst h; decide
      · exact pyIsSpace_eq_false_of_isDigit c (natDec_all_digits _ c h)
    rw [hstrip]
    simp only [pyIntCore]
    rw [if_pos trivial, decDigitsVal_natDec]
    simp only [Except.ok.injEq]
    omega
  · rw [if_neg hv]
    unfold pyInt
    rw [pyStrip_natDec, pyIntCore_natDec]
    rw [Int.toNat_of_nonneg (le_of_not_lt hv)]

/-- C4 (code_bug evidence): the spec says construction of an Integer from a
string with non-digit characters fails with a DecodeFailure (`DecodeError`),
but `RDFInteger.ParseFromString` catches only `TypeError`, which `int()`
never raises on a string; the `ValueError` raised by `int("abc")`
propagates as a plain `ValueError`, not a `DecodeError`. -/
theorem RDFInteger_parse_nondigit_raises_plain_valueError :
    RDFInteger.ParseFromString 7 ['a', 'b', 'c'] = (0, some PyErr.valueError) ∧
    (RDFInteger.ParseFromString 7 ['a', 'b', 'c']).2 ≠ some PyErr.decodeError := by
  decide

/-- C10: `RDFInteger.ParseFromString` first resets the stored value to 0
(so its outcome is independent of the previously stored value); an empty
string — the only falsy Python string — parses without error and leaves
the value 0; and whenever an exception is raised the stored value is 0. -/
theorem RDFInteger_parse_resets_and_accepts_empty
    (old₁ old₂ : Int) (s : List Char) :
    RDFInteger.ParseFromString old₁ s = RDFInteger.ParseFromString old₂ s ∧
    RDFInteger.ParseFromString old₁ [] = (0, none) ∧
    (∀ e : PyErr, (RDFInteger.ParseFromString old₁ s).2 = some e →
      (RDFInteger.ParseFromString old₁ s).1 = 0) := by
  refine ⟨rfl, rfl, ?_⟩
  intro e he
  unfold RDFInteger.ParseFromString at he ⊢
  split at he
  · simp at he
  · split at he
    · simp at he
    · split at he <;> (split <;> simp_all)

/-- Closed witness for `RDFInteger_parse_resets_and_accepts_empty`,
instantiating the error hypothesis at the input "abc". -/
theorem RDFInteger_parse_resets_witness :
    (RDFInteger.ParseFromString 5 ['a', 'b', 'c']).1 = 0 :=
  (RDFInteger_parse_resets_and_accepts_empty 5 0 ['a', 'b', 'c']).2.2
    PyErr.valueError (by decide)

theorem fdiv_mul_of_dvd {v d : Int} (hd : d ≠ 0) (h : d ∣ v) :
    v.fdiv d * d = v := by
  rcases h with ⟨c, rfl⟩
  rw [mul_comm d c, Int.mul_fdiv_cancel _ hd]

theorem Duration.parse_unit (old : Int) (c : Char) (d : Nat)
    (hmem : (c, d) ∈ Duration.DIVIDERS) (q : Int) :
    Duration.ParseFromHumanReadable old (intRepr q ++ [c]) = .ok (q * (d : Int)) := by
  have hdigit : c.isDigit = false := by fin_cases hmem <;> rfl
  have hlook : Duration.DIVIDERS.lookup c = some d := by fin_cases hmem <;> rfl
  unfold Duration.ParseFromHumanReadable
  rw [if_neg (by simp)]
  simp only [List.getLast?_concat, hdigit, Bool.false_eq_true, if_false, hlook,
    List.dropLast_concat, pyInt_intRepr]

theorem Duration.str_roundtrip (old v : Int) :
    Duration.ParseFromHumanReadable old (Duration.str v) = .ok v := by
  have core : ∀ (d : Nat) (c : Char), (c, d) ∈ Duration.DIVIDERS →
      v % (d : Int) = 0 →
      Duration.ParseFromHumanReadable old (intRepr (v.fdiv (d : Int)) ++ [c]) = .ok v := by
    intro d c hmem hmod
    rw [Duration.parse_unit old c d hmem]
    have hd0 : (d : Int) ≠ 0 := by fin_cases hmem <;> decide
    rw [fdiv_mul_of_dvd hd0 (Int.dvd_of_emod_eq_zero hmod)]
  unfold Duration.str Duration.DIVIDERS
  simp only [Duration.strGo]
  by_cases h1 : v % ((60 * 60 * 24 * 7 : Nat) : Int) = 0
  · rw [if_pos h1, Option.getD_some]
    exact core (60 * 60 * 24 * 7) 'w' (by decide) h1
  rw [if_neg h1]
  by_cases h2 : v % ((60 * 60 * 24 : Nat) : Int) = 0
  · rw [if_pos h2, Option.getD_some]
    exact core (60 * 60 * 24) 'd' (by decide) h2
  rw [if_neg h2]
  by_cases h3 : v % ((60 * 60 : Nat) : Int) = 0
  · rw [if_pos h3, Option.getD_some]
    exact core (60 * 60) 'h' (by decide) h3
  rw [if_neg h3]
  by_cases h4 : v % ((60 : Nat) : Int) = 0
  · rw [if_pos h4, Option.getD_some]
    exact core 60 'm' (by decide) h4
  rw [if_neg h4]
  rw [if_pos (show v % ((1 : Nat) : Int) = 0 by simpa using Int.emod_one v),
    Option.getD_some]
  exact core 1 's' (by decide) (by simpa using Int.emod_one v)

/-- C3 (counterexample): the claim says the trailing unit letter is matched
case-insensitively and that a bad trailing character yields a DecodeFailure.
The code looks the character up in `DIVIDERS` case-sensitively, so `"2W"`
(capital W) is rejected with a `RuntimeError` instead of parsing as
2 weeks = 1209600 seconds, and the error raised is not a `DecodeError`. -/
theorem Duration_parse_uppercase_unit_rejected :
    Duration.ParseFromHumanReadable 0 ['2', 'W'] = .error .runtimeError ∧
    Duration.ParseFromHumanReadable 0 ['2', 'W'] ≠ .ok 1209600 := by
  constructor
  · decide
  · decide

/-- C3 (amended): for a non-empty input string, if the final character is a
digit the whole string is parsed by strict `int()` as a bare seconds count
(a malformed string raising `InitializeError`, not DecodeError); otherwise
the final character must be one of the lowercase unit letters w, d, h, m, s
(the `DIVIDERS` keys, matched case-sensitively) and the remaining prefix a
strict integer multiplied by that unit's seconds (malformed prefix:
`InitializeError`); any other final character raises `RuntimeError` (not a
DecodeFailure).  An empty string is a silent no-op keeping the old value. -/
theorem Duration_parse_case_analysis (old : Int) (s : List Char) (c : Char)
    (hlast : s.getLast? = some c) :
    (c.isDigit = true → ∀ n, pyInt s = .ok n →
        Duration.ParseFromHumanReadable old s = .ok n) ∧
    (c.isDigit = true → ∀ e, pyInt s = .error e →
        Duration.ParseFromHumanReadable old s = .error .initializeError) ∧
    (c.isDigit = false → ∀ d, Duration.DIVIDERS.lookup c = some d →
        ((∀ n, pyInt s.dropLast = .ok n →
            Duration.ParseFromHumanReadable old s = .ok (n * (d : Int))) ∧
         (∀ e, pyInt s.dropLast = .error e →
            Duration.ParseFromHumanReadable old s = .error .initializeError))) ∧
    (c.isDigit = false → Duration.DIVIDERS.lookup c = none →
        Duration.ParseFromHumanReadable old s = .error .runtimeError) ∧
    Duration.ParseFromHumanReadable old [] = .ok old := by
  have hne : s.isEmpty = false := by
    cases s
    · simp at hlast
    · rfl
  refine ⟨?_, ?_, ?_, ?_, rfl⟩
  · intro hc n hok
    unfold Duration.ParseFromHumanReadable
    simp only [hne, hlast, hc, hok, Bool.false_eq_true, if_false, if_true]
    rw [mul_one]
  · intro hc e herr
    unfold Duration.ParseFromHumanReadable
    simp only [hne, hlast, hc, herr, Bool.false_eq_true, if_false, if_true]
  · intro hc d hd
    constructor
    · intro n hok
      unfold Duration.ParseFromHumanReadable
      simp only [hne, hlast, hc, hd, hok, Bool.false_eq_true, if_false]
    · intro e herr
      unfold Duration.ParseFromHumanReadable
      simp only [hne, hlast, hc, hd, herr, Bool.false_eq_true, if_false]
  · intro hc hnone
    unfold Duration.ParseFromHumanReadable
    simp only [hne, hlast, hc, hnone, Bool.false_eq_true, if_false]

/-- Closed witness for `Duration_parse_case_analysis` at the input "2w". -/
theorem Duration_parse_case_analysis_witness :
    Duration.ParseFromHumanReadable 5 ['2', 'w'] = .ok 1209600 := by
  have h := (Duration_parse_case_analysis 5 ['2', 'w'] 'w' (by decide)).2.2.1
    (by decide) 604800 (by decide) |>.1 2 (by decide)
  rw [h]
  norm_num

/-- C2 (counterexample): the claim (with the spec) says parsing "1.5Gb"
yields 1610612736 = 1.5 * 1024^3.  In the code the parser looks the unit
prefix "g" up in `DIVIDERS`, where it is the SI multiplier 1000^3
(only "gi" is 1024^3), so the result is 1500000000. -/
theorem ByteSize_parse_gb_is_SI :
    ByteSize.ParseFromHumanReadable 0 "1.5Gb".data = .ok 1500000000 ∧
    ByteSize.ParseFromHumanReadable 0 "1.5Gb".data ≠ .ok 1610612736 := by
  constructor
  · decide
  · decide

/-- C2 (amended): parsing "1.5Gb" yields 1500000000 (the "g" prefix is SI,
1000^3; the binary 1.5 * 1024^3 = 1610612736 is obtained from "1.5Gib");
formatting 1610612736 yields "1.5Gb" (the formatter divides by 1024^3 but
labels it "Gb"); formatting 512 yields "512b"; and in `DIVIDERS` the SI
prefixes k, m, g are powers of 1000 while ki, mi, gi are powers of 1024,
with the empty unit meaning bytes (fractional products truncated). -/
theorem ByteSize_examples :
    ByteSize.ParseFromHumanReadable 0 "1.5Gb".data = .ok 1500000000 ∧
    ByteSize.ParseFromHumanReadable 0 "1.5Gib".data = .ok 1610612736 ∧
    ByteSize.str 1610612736 = "1.5Gb".data ∧
    ByteSize.str 512 = "512b".data ∧
    ByteSize.DIVIDERS.lookup [] = some 1 ∧
    ByteSize.DIVIDERS.lookup ['k'] = some (1000 ^ 1) ∧
    ByteSize.DIVIDERS.lookup ['m'] = some (1000 ^ 2) ∧
    ByteSize.DIVIDERS.lookup ['g'] = some (1000 ^ 3) ∧
    ByteSize.DIVIDERS.lookup ['k', 'i'] = some (1024 ^ 1) ∧
    ByteSize.DIVIDERS.lookup ['m', 'i'] = some (1024 ^ 2) ∧
    ByteSize.DIVIDERS.lookup ['g', 'i'] = some (1024 ^ 3) := by
  refine ⟨by decide, by decide, by decide, by decide, ?_⟩
  refine ⟨by decide, by decide, by decide, by decide, by decide, by decide⟩

theorem renderAbs_go_prefix (segs : List (List Char)) (acc : List Char) :
    ∃ t, segs.foldl (fun acc s => acc ++ '/' :: s) acc = acc ++ t := by
  induction segs generalizing acc with
  | nil => exact ⟨[], by simp⟩
  | cons s ss ih =>
    rcases ih (acc ++ '/' :: s) with ⟨t, ht⟩
    exact ⟨('/' :: s) ++ t, by simp only [List.foldl_cons, ht, List.append_assoc]⟩

theorem normalizePath_head (cs : List Char) :
    ∃ rest, normalizePath cs = '/' :: rest := by
  unfold normalizePath
  dsimp only
  split
  · exact ⟨[], rfl⟩
  · rename_i hne
    cases hsegs : (splitOnChar '/' cs).foldl normStep [] with
    | nil => rw [hsegs] at hne; simp at hne
    | cons s ss =>
      unfold renderAbs
      rcases renderAbs_go_prefix ss ([] ++ '/' :: s) with ⟨t, ht⟩
      exact ⟨s ++ t, by simp only [List.foldl_cons, ht]; simp⟩

theorem normalizePath_ne_nil (cs : List Char) : normalizePath cs ≠ [] := by
  rcases normalizePath_head cs with ⟨rest, h⟩
  rw [h]
  simp

/-- C8: `Add` returns a new URN whose path is the segment joined to the
receiver's path and normalized, and leaves the receiver unchanged; and
`URN("aff4:/C.1000/fs/os").Add("foo")` equals
`URN("aff4:/C.1000/fs/os/foo")` under URN equality (which compares the
stored path). -/
theorem RDFURN_Add_frame_and_example :
    (∀ (u : URNState) (p : List Char), (RDFURN.Add u p).1 = u) ∧
    (∀ (u : URNState) (p : List Char),
      (RDFURN.Add u p).2.string_urn = JoinPath u.string_urn p) ∧
    (RDFURN.Add (RDFURN.fromString "aff4:/C.1000/fs/os".data) "foo".data).2.string_urn
      = (RDFURN.fromString "aff4:/C.1000/fs/os/foo".data).string_urn := by
  refine ⟨fun u p => rfl, fun u p => ?_, by decide⟩
  show (if (JoinPath u.string_urn p).isEmpty then (RDFURN.Copy u).string_urn
      else JoinPath u.string_urn p) = JoinPath u.string_urn p
  rw [if_neg ?_]
  rw [Bool.not_eq_true, List.isEmpty_eq_false_iff_exists_mem]
  rcases normalizePath_head (u.string_urn ++ '/' :: p) with ⟨rest, h⟩
  exact ⟨'/', by rw [show JoinPath u.string_urn p = '/' :: rest from h]; simp⟩

/-- C6: constructing a SessionID from an existing URN validates the URN's
basename against `[-0-9a-zA-Z]+:[0-9a-zA-Z]+`: every URN whose basename
fails the pattern is rejected with an `InitializeError`, while a URN with
basename "H:1A2B3C" constructs successfully (keeping its path). -/
theorem SessionID_from_urn_validation (u : URNState)
    (h : SessionID.ValidateID (posixBasename u.string_urn) = false) :
    SessionID.fromURN u = .error .initializeError ∧
    SessionID.fromURN (RDFURN.fromString "aff4:/flows/H:1A2B3C".data)
      = .ok { string_urn := "/flows/H:1A2B3C".data, dirty := false } := by
  constructor
  · unfold SessionID.fromURN
    rw [h]
    simp
  · decide

/-- Closed witness for `SessionID_from_urn_validation`: the URN with
basename "bad basename" (it contains a space) is rejected. -/
theorem SessionID_from_urn_validation_witness :
    SessionID.fromURN (RDFURN.fromString "aff4:/flows/bad basename".data)
      = .error .initializeError :=
  (SessionID_from_urn_validation
    (RDFURN.fromString "aff4:/flows/bad basename".data) (by decide)).1

/-- C5 (counterexample): the claim says the legacy shim still subjects the
qualified result to basename validation, so that construction from
"bad basename" fails.  In the code, `SessionID.__init__` validates only
`RDFURN` initializers; a string initializer goes straight to
`FlowSessionID.ParseFromString`, so `FlowSessionID("bad basename")`
succeeds and stores `/flows/bad basename`, whose basename fails the
pattern. -/
theorem FlowSessionID_shim_skips_validation :
    FlowSessionID.fromString "bad basename".data
      = .ok { string_urn := "/flows/bad basename".data, dirty := false } ∧
    SessionID.ValidateID (posixBasename "/flows/bad basename".data) = false := by
  constructor
  · decide
  · decide

/-- C5 (amended): the legacy shim qualifies a bare flow identifier (any
string not starting with "aff4") into the default flow namespace
"aff4:/flows/", and construction from a string then always succeeds —
no basename validation is applied on this path; `ValidateID` runs only
for URN initializers (see `SessionID.fromURN`). -/
theorem FlowSessionID_string_construction_never_fails (cs : List Char) :
    (FlowSessionID.fromString cs).isOk = true ∧
    FlowSessionID.fromString cs
      = .ok (FlowSessionID.ParseFromString { string_urn := [], dirty := false } cs) ∧
    (¬ cs.take 4 = "aff4".data →
      FlowSessionID.ParseFromString { string_urn := [], dirty := false } cs
        = RDFURN.fromString ("aff4:/flows/".data ++ cs)) := by
  refine ⟨rfl, rfl, fun h => ?_⟩
  unfold FlowSessionID.ParseFromString
  rw [if_neg h]
  rfl

/-- Closed witness for `FlowSessionID_string_construction_never_fails`
at the bare identifier "W:X". -/
theorem FlowSessionID_string_construction_witness :
    FlowSessionID.ParseFromString { string_urn := [], dirty := false } "W:X".data
      = RDFURN.fromString ("aff4:/flows/".data ++ "W:X".data) :=
  (FlowSessionID_string_construction_never_fails "W:X".data).2.2 (by decide)

theorem runEvents_invocation_names (evs : List RegEvent) :
    ∀ s : LateBindingStore, ∀ inv ∈ (runEvents s evs).2,
      ∃ t, RegEvent.define inv.name t ∈ evs := by
  induction evs with
  | nil => intro s inv hinv; simp [runEvents] at hinv
  | cons e rest ih =>
    intro s inv hinv
    cases e with
    | register n cb =>
      rcases ih (RegisterLateBindingCallback n cb s) inv hinv with ⟨t, ht⟩
      exact ⟨t, List.mem_cons_of_mem _ ht⟩
    | define n ty =>
      simp only [runEvents, List.mem_append] at hinv
      rcases hinv with hinv | hinv
      · rcases List.mem_map.mp hinv with ⟨p, _, hp⟩
        refine ⟨ty, ?_⟩
        rw [← hp]
        exact List.mem_cons_self _ _
      · rcases ih _ inv hinv with ⟨t, ht⟩
        exact ⟨t, List.mem_cons_of_mem _ ht⟩

/-- C7: late binding.  Starting from a store with nothing pending for
`n`: (1) registering any number of callbacks for `n` invokes nothing and
records them in order; (2) defining `n` then invokes each pending
callback exactly once, in registration order, passing the freshly
resolved type, and discards them from the store (leaving exactly the
unrelated entries); (3) since they are discarded, a subsequent define of
`n` invokes nothing; (4) callbacks for a name that is never defined are
never invoked. -/
theorem Registry_late_binding (s0 : List (String × Nat)) (n : String)
    (ty ty2 : Nat) (cbs : List Nat) (h0 : ∀ p ∈ s0, ¬ p.1 = n) :
    runEvents s0 (cbs.map (RegEvent.register n))
      = (List.append s0 (cbs.map (fun cb => (n, cb))), []) ∧
    DefineType n ty (List.append s0 (cbs.map (fun cb => (n, cb))))
      = (s0, cbs.map (fun cb => Invocation.mk n cb ty)) ∧
    (DefineType n ty2 s0).2 = [] ∧
    (∀ evs : List RegEvent, (∀ t, RegEvent.define n t ∉ evs) →
      ∀ inv ∈ (runEvents s0 evs).2, ¬ inv.name = n) := by
  refine ⟨?_, ?_, ?_, ?_⟩
  · clear h0
    induction cbs generalizing s0 with
    | nil => simp [runEvents]
    | cons cb rest ih =>
      simp only [List.map_cons, runEvents]
      rw [ih (RegisterLateBindingCallback n cb s0)]
      unfold RegisterLateBindingCallback
      simp [List.append_assoc]
  · unfold DefineType
    rw [Prod.mk.injEq]
    simp only [List.append_eq]
    constructor
    · rw [List.filter_append]
      rw [List.filter_eq_self.mpr (by
        intro p hp
        simpa using h0 p hp)]
      rw [List.filter_eq_nil_iff.mpr (by
        intro p hp
        rcases List.mem_map.mp hp with ⟨cb, _, hcb⟩
        subst hcb
        simp)]
      simp
    · rw [List.filter_append]
      rw [List.filter_eq_nil_iff.mpr (by
        intro p hp
        simpa using h0 p hp)]
      rw [List.filter_eq_self.mpr (by
        intro p hp
        rcases List.mem_map.mp hp with ⟨cb, _, hcb⟩
        subst hcb
        simp)]
      simp [List.map_map]
  · unfold DefineType
    simp only
    rw [List.filter_eq_nil_iff.mpr (by
      intro p hp
      simpa using h0 p hp)]
    rfl
  · intro evs hnd inv hinv
    rcases runEvents_invocation_names evs s0 inv hinv with ⟨t, ht⟩
    intro hname
    exact hnd t (hname ▸ ht)

/-- Closed witness for `Registry_late_binding`: two callbacks registered
for "Foo" next to an unrelated pending entry fire exactly once each, in
order, with the defined type, and are discarded. -/
theorem Registry_late_binding_witness :
    DefineType "Foo" 7 (List.append [("Other", 9)] ([1, 2].map (fun cb => ("Foo", cb))))
      = ([("Other", 9)], [1, 2].map (fun cb => Invocation.mk "Foo" cb 7)) :=
  (Registry_late_binding [("Other", 9)] "Foo" 7 7 [1, 2] (by decide)).2.1

/-- C9 (counterexample): at microsecond resolution, subtracting
b = 0.5 s from a = 2.0 s yields Duration(2) in the code — each operand is
floor-divided to whole seconds first — whereas the claim's "difference of
the two instants with the sub-second remainder truncated" is 1.5 s
truncated to 1. -/
theorem RDFDatetime_sub_counterexample :
    RDFDatetime.subDatetime MICROSECONDS 2000000 500000 = 2 ∧
    specTruncatedDifferenceSeconds MICROSECONDS 2000000 500000 = 1 ∧
    RDFDatetime.subDatetime MICROSECONDS 2000000 500000
      ≠ specTruncatedDifferenceSeconds MICROSECONDS 2000000 500000 := by
  refine ⟨by decide, by decide, by decide⟩

/-- C9 (amended): subtracting two absolute-time values of the same
resolution yields a Duration whose seconds are the difference of the two
operands' `AsSecondsFromEpoch` values — each instant is floor-divided to
whole seconds separately before subtracting.  When both instants are
whole seconds (the resolution divides both), this coincides with the
truncated difference the claim describes. -/
theorem RDFDatetime_sub_per_operand_floor (converter a b : Int) :
    RDFDatetime.subDatetime converter a b
      = a.fdiv converter - b.fdiv converter ∧
    (0 < converter → converter ∣ a → converter ∣ b →
      RDFDatetime.subDatetime converter a b
        = specTruncatedDifferenceSeconds converter a b) := by
  refine ⟨rfl, ?_⟩
  rintro hpos ⟨x, rfl⟩ ⟨y, rfl⟩
  unfold RDFDatetime.subDatetime RDFDatetime.AsSecondsFromEpoch
    specTruncatedDifferenceSeconds
  rw [Int.mul_fdiv_cancel_left _ (ne_of_gt hpos),
    Int.mul_fdiv_cancel_left _ (ne_of_gt hpos),
    ← mul_sub, Int.mul_tdiv_cancel_left _ (ne_of_gt hpos)]

/-- Closed witness for `RDFDatetime_sub_per_operand_floor` at two
whole-second microsecond instants. -/
theorem RDFDatetime_sub_per_operand_floor_witness :
    RDFDatetime.subDatetime MICROSECONDS 2000000 1000000
      = specTruncatedDifferenceSeconds MICROSECONDS 2000000 1000000 :=
  (RDFDatetime_sub_per_operand_floor MICROSECONDS 2000000 1000000).2
    (by decide) ⟨2, by norm_num [MICROSECONDS]⟩ ⟨1, by norm_num [MICROSECONDS]⟩

theorem toLower_of_isDigit (c : Char) (h : c.isDigit = true) :
    c.toLower = c := by
  unfold Char.toLower
  rw [if_neg]
  intro hc
  have h57 : c.toNat ≤ 57 := by
    simp only [Char.isDigit, decide_eq_true_eq, Bool.and_eq_true, Char.le_def,
      ge_iff_le, decide_eq_true_eq] at h
    rcases h with ⟨_, h2⟩
    exact_mod_cast h2
  omega

theorem map_eq_self_of_forall {f : Char → Char} {l : List Char}
    (h : ∀ c ∈ l, f c = c) : l.map f = l := by
  induction l with
  | nil => rfl
  | cons c cs ih =>
    simp only [List.map_cons]
    rw [h c (List.mem_cons_self c cs), ih (fun x hx => h x (List.mem_cons_of_mem c hx))]

theorem byteSize_regex_digits (m : Nat) :
    ByteSize.regexMatch (natDec m) = some (natDec m, []) := by
  have h1 : List.takeWhile (fun c => c.isDigit || c = '.') (natDec m) = natDec m :=
    List.takeWhile_eq_self_iff.mpr (fun c hc => by simp [natDec_all_digits m c hc])
  have h2 : List.dropWhile (fun c => c.isDigit || c = '.') (natDec m) = [] :=
    List.dropWhile_eq_nil_iff.mpr (fun c hc => by simp [natDec_all_digits m c hc])
  unfold ByteSize.regexMatch
  dsimp only
  rw [h1, h2]
  rw [if_neg (by simpa using natDec_ne_nil m)]
  simp

theorem byteSize_parse_natDec (old : Int) (m : Nat) :
    ByteSize.ParseFromHumanReadable old (natDec m) = .ok (m : Int) := by
  unfold ByteSize.ParseFromHumanReadable
  rw [if_neg (by simpa using natDec_ne_nil m)]
  dsimp only
  rw [pyStrip_natDec]
  rw [map_eq_self_of_forall (fun c hc => toLower_of_isDigit c (natDec_all_digits m c hc))]
  rw [byteSize_regex_digits]
  have hdot : ¬ ('.' ∈ natDec m) := by
    intro hc
    have := natDec_all_digits m '.' hc
    exact absurd this (by decide)
  dsimp only
  rw [show ByteSize.DIVIDERS.lookup ([] : List Char) = some 1 from rfl]
  dsimp only
  rw [if_neg (show ¬ (1 = 0) by omega)]
  rw [if_neg hdot, decDigitsVal_natDec]
  dsimp only
  norm_num

theorem RDFURN_parse_serialize (w u : URNState)
    (hu : NormalizedPath u.string_urn) :
    (RDFURN.ParseFromString w (RDFURN.SerializeToString u)).string_urn
      = u.string_urn := by
  obtain ⟨rest, hrest⟩ : ∃ rest, u.string_urn = '/' :: rest := by
    rcases normalizePath_head u.string_urn with ⟨r, hr⟩
    exact ⟨r, by rw [← hu, hr]⟩
  unfold RDFURN.ParseFromString RDFURN.SerializeToString
  dsimp only
  rw [hrest]
  rw [show ("aff4:".data ++ '/' :: rest).take 6 = "aff4:/".data by
    simp [List.take]]
  rw [if_pos rfl]
  rw [List.drop_left' (show ("aff4:".data).length = 5 from rfl)]
  rw [← hrest, hu]

/-- C1: wire round-trip.  For each concrete value type, parsing the wire
serialization of a value yields an equal value, hence `Copy()` produces
an equal value: bytes and strings round-trip verbatim; a HashDigest copy
is equal under its hex-accepting equality; RDFInteger — and with it
RDFBool, and RDFDatetime/RDFDatetimeSeconds whose `ParseFromString` is
inherited from RDFInteger — recovers any integer from its `str()` form
(`dt` additionally certifies that the `int()` attempt in
`RDFDatetime.__init__`, the route `Copy()` takes, succeeds on that form,
so the human-readable fallback is never consulted); a Duration is
recovered from its canonical unit rendering; a ByteSize (a non-negative
count per the data model) is recovered by the human-readable parser its
`Copy()` goes through; and a URN — whose stored path is always
normalized — is recovered from its "aff4:"-prefixed rendering. -/
theorem RDFValue_wire_roundtrip (old : Int) (bv sv : List Char)
    (iv dv dt : Int) (bs : Int) (w u : URNState)
    (hbs : 0 ≤ bs) (hu : NormalizedPath u.string_urn) :
    RDFBytes.ParseFromString (RDFBytes.SerializeToString bv) = bv ∧
    RDFString.ParseFromString (RDFString.SerializeToString sv) = sv ∧
    HashDigest.eqPy (RDFBytes.ParseFromString (RDFBytes.SerializeToString bv)) bv ∧
    RDFInteger.ParseFromString old (intRepr iv) = (iv, none) ∧
    Duration.ParseFromHumanReadable old (Duration.str dv) = .ok dv ∧
    pyInt (intRepr dt) = .ok dt ∧
    ByteSize.ParseFromHumanReadable old (intRepr bs) = .ok bs ∧
    (RDFURN.ParseFromString w (RDFURN.SerializeToString u)).string_urn
      = u.string_urn := by
  refine ⟨rfl, rfl, Or.inr (Or.inr rfl), ?_, Duration.str_roundtrip old dv,
    pyInt_intRepr dt, ?_, RDFURN_parse_serialize w u hu⟩
  · unfold RDFInteger.ParseFromString
    rw [if_neg (by
      have : intRepr iv ≠ [] := by
        unfold intRepr
        split
        · simp
        · exact natDec_ne_nil _
      simpa using this)]
    rw [pyInt_intRepr]
  · have hbs' : intRepr bs = natDec bs.toNat := by
      unfold intRepr
      rw [if_neg (by omega)]
    rw [hbs', byteSize_parse_natDec, Int.toNat_of_nonneg hbs]

/-- Closed witness for `RDFValue_wire_roundtrip`, instantiated at the
byte string "ab", integer -42, duration 1209600, datetime 1234567,
byte size 512 and the URN path "/C.1000/fs/os". -/
theorem RDFValue_wire_roundtrip_witness :
    RDFInteger.ParseFromString 9 (intRepr (-42)) = (-42, none) ∧
    Duration.ParseFromHumanReadable 9 (Duration.str 1209600) = .ok 1209600 ∧
    ByteSize.ParseFromHumanReadable 9 (intRepr 512) = .ok 512 ∧
    (RDFURN.ParseFromString { string_urn := [], dirty := false }
      (RDFURN.SerializeToString { string_urn := "/C.1000/fs/os".data, dirty := false })).string_urn
      = "/C.1000/fs/os".data := by
  have h := RDFValue_wire_roundtrip 9 "ab".data "cd".data (-42) 1209600 1234567
    512 { string_urn := [], dirty := false }
    { string_urn := "/C.1000/fs/os".data, dirty := false }
    (by decide) (by unfold NormalizedPath; decide)
  exact ⟨h.2.2.2.1, h.2.2.2.2.1, h.2.2.2.2.2.2.1, h.2.2.2.2.2.2.2⟩
